import Mathlib

/-!
Verification development for the PyInstaDump incremental virtualized-list
harvester.  The definitions below are shallow embeddings of the Python code in
`scrape_followers.py` and `pyinstadump/pengikis.py`: pure data transformations
are translated into Lean functions, the scroll/extract loops become explicit
state-passing recursions on the loop counters the code itself bounds, and
fallible browser operations become `Except`/`Option` valued inputs.
-/

/-- Character class of Python `str.strip()` (ASCII whitespace as stripped by
`username.strip()` in `pengikis.py` line 415). -/
def isPySpace (c : Char) : Bool :=
  c = ' ' || c = '\t' || c = '\n' || c = '\r' || c = '\x0b' || c = '\x0c'

/-- Python `s.strip()`: remove leading and trailing whitespace. -/
def pyStrip (s : String) : String :=
  String.mk (((s.data.dropWhile (fun c => isPySpace c)).reverse.dropWhile
      (fun c => isPySpace c)).reverse)

namespace ScrapeFollowers

/-- The constant `max_attempts_no_change = 5` of
`collect_usernames_from_followers_dialog` (scrape_followers.py line 197). -/
def max_attempts_no_change : Nat := 5

/-- The inner merge loop of `collect_usernames_from_followers_dialog`
(scrape_followers.py lines 225-230):
`for u in found: if u not in seen: seen.add(u); usernames.append(u);
if len(usernames) >= limit: break`.  The Python `seen` set always holds exactly
the elements of `usernames`, so membership in the accumulator list models it. -/
def mergeFound (usernames : List String) (found : List String) (limit : Nat) :
    List String :=
  match found with
  | [] => usernames
  | u :: rest =>
    if u ∈ usernames then mergeFound usernames rest limit
    else
      let usernames' := usernames ++ [u]
      if limit ≤ usernames'.length then usernames'
      else mergeFound usernames' rest limit

/-- Reasons the `while` loop of `collect_usernames_from_followers_dialog`
stops: the cap test (the loop guard `len(usernames) < limit` or the `break`
at line 243-244), the no-growth `break` at line 239-241, or the failed-scroll
`break` at line 256-258.  `fuelOut` is the unreachable out-of-fuel marker of
the embedding. -/
inductive CollectExit where
  | limitReached
  | noChange
  | scrollFailed
  | fuelOut
deriving DecidableEq, Repr

/-- Result of one iteration body: either loop again with updated state, or
stop with the given exit. -/
inductive StepResult where
  | next (usernames : List String) (prev_count : Int) (attempts_no_change : Nat)
  | stop (usernames : List String) (e : CollectExit)
deriving DecidableEq, Repr

/-- One iteration of the `while` loop of
`collect_usernames_from_followers_dialog` (scrape_followers.py lines 200-260),
entered with the guard `len(usernames) < limit` known to hold: merge the
extracted `found` into the accumulator, then
`if len(usernames) == prev_count: attempts_no_change += 1 else: 0`,
then `break` when the no-growth counter reaches `max_attempts_no_change`,
then `break` when the cap is reached, then scroll (stopping when the scroll
evaluate returned false). -/
def collectIter (found : List String) (scrolled : Bool) (limit : Nat)
    (usernames : List String) (prev_count : Int) (attempts_no_change : Nat) :
    StepResult :=
  let merged := mergeFound usernames found limit
  let attempts' :=
    if (merged.length : Int) = prev_count then attempts_no_change + 1 else 0
  if max_attempts_no_change ≤ attempts' then .stop merged .noChange
  else if limit ≤ merged.length then .stop merged .limitReached
  else if scrolled then .next merged (merged.length : Int) attempts'
  else .stop merged .scrollFailed

/-- The `while len(usernames) < limit` loop of
`collect_usernames_from_followers_dialog`.  `extract i` is the list returned
by the in-page extraction `page.evaluate` on iteration `i`; `scroll i` is the
boolean returned by the scrolling `page.evaluate`.  The `fuel` argument is an
artifact of the embedding; `collect_usernames_from_followers_dialog` supplies
enough fuel that `fuelOut` is unreachable (theorem `collectLoop_ne_fuelOut`).
The third component of the result counts the iterations executed (the index
one past the last consumed extractor output). -/
def collectLoop (extract : Nat → List String) (scroll : Nat → Bool)
    (limit : Nat) :
    Nat → Nat → List String → Int → Nat → List String × CollectExit × Nat
  | 0, i, usernames, _, _ => (usernames, CollectExit.fuelOut, i)
  | fuel + 1, i, usernames, prev_count, attempts_no_change =>
    if usernames.length < limit then
      match collectIter (extract i) (scroll i) limit usernames prev_count
          attempts_no_change with
      | .stop u e => (u, e, i + 1)
      | .next u p a => collectLoop extract scroll limit fuel (i + 1) u p a
    else (usernames, CollectExit.limitReached, i)

/-- `collect_usernames_from_followers_dialog(page, scrollable_selector, limit)`
(scrape_followers.py lines 190-263): run the scroll/extract loop from the
initial state `usernames = []`, `prev_count = -1`, `attempts_no_change = 0`
and return `usernames[:limit]` together with the exit reason and the number of
iterations executed. -/
def collect_usernames_from_followers_dialog (extract : Nat → List String)
    (scroll : Nat → Bool) (limit : Nat) : List String × CollectExit × Nat :=
  let r := collectLoop extract scroll limit (6 * limit + 7) 0 [] (-1) 0
  (r.1.take limit, r.2.1, r.2.2)

/-- Spec status tags (§4.2 of the specification).  The Python function returns
only the username list, so the tag is derived from the terminal path the code
took; `parsial` renders the status the specification calls partial. -/
inductive Status where
  | success
  | parsial
  | stalled
deriving DecidableEq, Repr

/-- Modelled from the spec: the specification assigns a status per terminal
path of the harvest loop - cap reached is success, stopping with data but
without reaching the cap is partial, stopping with no data is stalled.  The
code itself returns no tag, only the list. -/
def collectStatus (r : List String × CollectExit × Nat) : Status :=
  match r.2.1 with
  | CollectExit.limitReached => Status.success
  | _ => if r.1 = [] then Status.stalled else Status.parsial

/-- First-discovery order, written from the specification words (§3: the
accumulator is an insertion-ordered set keyed by identifier, order of first
discovery preserved): fold the stream, appending each identifier not yet
present. -/
def firstOccurFrom (usernames : List String) (found : List String) :
    List String :=
  match found with
  | [] => usernames
  | u :: rest =>
    if u ∈ usernames then firstOccurFrom usernames rest
    else firstOccurFrom (usernames ++ [u]) rest

/-- Invariant of the scroll loop state: either the initial sentinel state
(`prev_count = -1`), or `prev_count` records the current accumulator size,
that size is below the cap, and the no-growth counter is below the
threshold - exactly what holds whenever the Python loop re-enters its body. -/
def collectInv (limit : Nat) (usernames : List String) (prev_count : Int)
    (attempts_no_change : Nat) : Prop :=
  (prev_count = -1 ∧ attempts_no_change = 0 ∧ usernames = []) ∨
  (prev_count = (usernames.length : Int) ∧ usernames.length < limit ∧
    attempts_no_change ≤ 4)

/-- The same `while` loop as `collectLoop`, with the per-iteration extraction
`found = await page.evaluate(...)` (scrape_followers.py lines 202-223) allowed
to raise.  That call stands inside no `try`, so its exception propagates out
of `collect_usernames_from_followers_dialog` (and out of `run_scrape`, whose
line 384 call is likewise unprotected), discarding the accumulated list. -/
def collectLoopE (extract : Nat → Except Unit (List String))
    (scroll : Nat → Bool) (limit : Nat) :
    Nat → Nat → List String → Int → Nat →
    Except Unit (List String × CollectExit × Nat)
  | 0, i, usernames, _, _ => Except.ok (usernames, CollectExit.fuelOut, i)
  | fuel + 1, i, usernames, prev_count, attempts_no_change =>
    if usernames.length < limit then
      match extract i with
      | Except.error e => Except.error e
      | Except.ok found =>
        match collectIter found (scroll i) limit usernames prev_count
            attempts_no_change with
        | .stop u e => Except.ok (u, e, i + 1)
        | .next u p a => collectLoopE extract scroll limit fuel (i + 1) u p a
    else Except.ok (usernames, CollectExit.limitReached, i)

/-- `collect_usernames_from_followers_dialog` with fallible extraction: the
result the caller observes, an exception being `Except.error`. -/
def collectE (extract : Nat → Except Unit (List String))
    (scroll : Nat → Bool) (limit : Nat) :
    Except Unit (List String × CollectExit × Nat) :=
  match collectLoopE extract scroll limit (6 * limit + 7) 0 [] (-1) 0 with
  | Except.error e => Except.error e
  | Except.ok r => Except.ok (r.1.take limit, r.2.1, r.2.2)

/-- What `save_debug_artifacts` (scrape_followers.py lines 49-59) reports:
either both artifacts were written or the failure was printed. -/
inductive SaveOutcome where
  | saved
  | logged
deriving DecidableEq, Repr

/-- `save_debug_artifacts(page, safe_name)` (scrape_followers.py lines 49-59):
the screenshot, the `page.content()` call and the file write may each fail;
the surrounding `try`/`except` absorbs any of those failures into a printed
message.  The result type records what could escape the Python function. -/
def save_debug_artifacts (shot content fileWrite : Except Unit Unit) :
    Except Unit SaveOutcome :=
  match (do shot; content; fileWrite : Except Unit Unit) with
  | Except.error _ => Except.ok SaveOutcome.logged
  | Except.ok _ => Except.ok SaveOutcome.saved

/-- The outcomes of `open_followers_modal` (scrape_followers.py lines
124-187): page load error (line 131-133), redirect to the login page (line
137-139), no strategy of the followers-link cascade matched (line 160-162),
an exception while clicking or waiting for the dialog (line 184-187, the one
arm that itself calls `save_debug_artifacts`), or an opened dialog. -/
inductive ModalOutcome where
  | loadError
  | loginRedirect
  | noLinkFound
  | clickError
  | opened
deriving DecidableEq, Repr

/-- Selector returned by `open_followers_modal` (some on success, none on
every failure path) paired with how many times that function itself invoked
`save_debug_artifacts`. -/
def open_followers_modal_result (m : ModalOutcome) : Option Unit × Nat :=
  match m with
  | ModalOutcome.opened => (some (), 0)
  | ModalOutcome.clickError => (none, 1)
  | _ => (none, 0)

/-- The harvest portion of `run_scrape` (scrape_followers.py lines 376-391):
when `open_followers_modal` returns no selector, save debug artifacts once
more and return exit code 2 with no usernames (lines 377-381); when the
collected list is empty, save debug artifacts and return exit code 3 (lines
385-389); otherwise deliver the collected usernames (exit code 0).  Result:
(exit code, total `save_debug_artifacts` invocations, delivered usernames). -/
def run_scrape (m : ModalOutcome) (extract : Nat → List String)
    (scroll : Nat → Bool) (limit : Nat) : Nat × Nat × List String :=
  let mr := open_followers_modal_result m
  match mr.1 with
  | none => (2, mr.2 + 1, [])
  | some _ =>
    let u := (collect_usernames_from_followers_dialog extract scroll limit).1
    if u = [] then (3, mr.2 + 1, [])
    else (0, mr.2, u)

/-- Modelled from the spec: `run_scrape` returns only an exit code, while the
spec describes a result object with a status tag (§6); a session that
delivered no entities is stalled, one that delivered entities ended in
success or partial depending on the cap, which the nonzero-delivery paths of
`run_scrape` do not distinguish - for this mapping a nonempty delivery is
tagged success. -/
def run_scrape_status (r : Nat × Nat × List String) : Status :=
  if r.2.2 = [] then Status.stalled else Status.success

/-- The strategy cascade of `open_followers_modal` (scrape_followers.py lines
144-158): each strategy is the DOM-ordered list of elements it matches
(`a[href*="/followers/"]`, then anchors with text followers, then buttons
with text followers); the first strategy with `count() > 0` wins and its
`.first()` element is used. -/
def resolveFirst {α : Type} : List (List α) → Option α
  | [] => none
  | s :: rest =>
    match s with
    | [] => resolveFirst rest
    | x :: _ => some x

end ScrapeFollowers

namespace Pengikis

/-- One rendered item container inside the followers/following dialog, as
`_ekstrak_data_real_time` (pengikis.py lines 359-425) sees it: the `href`
attribute of its first profile link (`none` when the link lookup raises or the
attribute is absent - both paths skip the item) and the full-name text the
span heuristic finds for it. -/
structure Kontainer where
  href : Option String
  nama : String
deriving DecidableEq, Repr

/-- `username = href.replace('/', '') if href else ""`
(pengikis.py line 381). -/
def username_of (k : Kontainer) : String :=
  match k.href with
  | none => ""
  | some h => String.mk (h.data.filter (fun c => c ≠ '/'))

/-- The filter on line 415 of pengikis.py:
`username and username.strip() != "" and not (' ' in username or
len(username) > 30)`. -/
def valid_username (u : String) : Bool :=
  (!(u = "")) && (!(pyStrip u = "")) && (!(u.data.contains ' ' || 30 < u.length))

/-- `_ekstrak_data_real_time(username_terproses)` (pengikis.py lines 359-425):
walk the item containers in DOM order; skip an item when its username is empty
or already processed (line 385); append `(username, nama_lengkap)` to
`hasil_scrape` and record the username in `username_terproses` only when the
line-415 filter passes, otherwise drop the item silently. -/
def ekstrak_data_real_time :
    List Kontainer → List (String × String) → List String →
    List (String × String) × List String
  | [], hasil, terproses => (hasil, terproses)
  | k :: rest, hasil, terproses =>
    let username := username_of k
    if username = "" ∨ username ∈ terproses then
      ekstrak_data_real_time rest hasil terproses
    else if valid_username username then
      ekstrak_data_real_time rest (hasil ++ [(username, k.nama)])
        (terproses ++ [username])
    else
      ekstrak_data_real_time rest hasil terproses

/-- A harvest session merging one extractor output after another, as
`_gulir_dan_muat_data` does across its iterations: start from an empty
`hasil_scrape` and an empty `username_terproses` and run
`_ekstrak_data_real_time` on each output in turn. -/
def sesi (outs : List (List Kontainer)) :
    List (String × String) × List String :=
  outs.foldl (fun st ks => ekstrak_data_real_time ks st.1 st.2) ([], [])

/-- `max_scrolls = 10000` (pengikis.py line 182), the hard ceiling of the
scroll loop. -/
def max_scrolls : Nat := 10000

/-- Observable outcome of the `_gulir_dan_muat_data` scroll loop: the
accumulated records and processed-username set, the final `scroll_attempts`
counter, the number of loop iterations executed, and whether an exception
escaped the loop (the unprotected `locator(...).count()` on line 226 raising,
the only statement of the loop body outside a `try`). -/
structure GulirOut where
  hasil : List (String × String)
  terproses : List String
  scroll_attempts : Nat
  iters : Nat
  escaped : Bool
deriving DecidableEq, Repr

/-- The `while scroll_attempts < max_scrolls` loop of `_gulir_dan_muat_data`
(pengikis.py lines 186-265).  Inputs per iteration `i`: `scrollRaises i` says
whether the scroll-command block raises (lines 188-219; its exception is
caught on line 221, so both branches continue identically); `countE i` is the
anchor count `locator(...).count()` of line 226, whose exception is NOT caught
and escapes the loop; `entries i` is the container list
`_ekstrak_data_real_time` would see on iteration `i`.  Control flow of one
iteration: when the count grew, extract in real time (line 229-230); when the
count is unchanged (line 232), either increment `scroll_attempts` and retry if
`scroll_attempts < 5` or break; otherwise record the count, increment
`scroll_attempts`, and break once the count exceeds 100000 (line 260).
The `fuel` argument is the embedding artifact bounding the recursion; the
top-level call supplies `max_scrolls`, which the guard makes sufficient. -/
def gulirLoop (countE : Nat → Except Unit Nat) (entries : Nat → List Kontainer)
    (scrollRaises : Nat → Bool) :
    Nat → Nat → Nat → Nat → List (String × String) → List String → GulirOut
  | 0, _, scroll_attempts, _, hasil, terproses =>
    { hasil := hasil, terproses := terproses, scroll_attempts := scroll_attempts,
      iters := 0, escaped := false }
  | fuel + 1, i, scroll_attempts, previous_count, hasil, terproses =>
    if scroll_attempts < max_scrolls then
      let _scroll_block := if scrollRaises i then () else ()
      match countE i with
      | Except.error _ =>
        { hasil := hasil, terproses := terproses,
          scroll_attempts := scroll_attempts, iters := 1, escaped := true }
      | Except.ok current_count =>
        let st :=
          if previous_count < current_count then
            ekstrak_data_real_time (entries i) hasil terproses
          else (hasil, terproses)
        if current_count = previous_count then
          if scroll_attempts < 5 then
            let r := gulirLoop countE entries scrollRaises fuel (i + 1)
              (scroll_attempts + 1) previous_count st.1 st.2
            { r with iters := r.iters + 1 }
          else
            { hasil := st.1, terproses := st.2,
              scroll_attempts := scroll_attempts, iters := 1, escaped := false }
        else
          if 100000 < current_count then
            { hasil := st.1, terproses := st.2,
              scroll_attempts := scroll_attempts + 1, iters := 1,
              escaped := false }
          else
            let r := gulirLoop countE entries scrollRaises fuel (i + 1)
              (scroll_attempts + 1) current_count st.1 st.2
            { r with iters := r.iters + 1 }
    else
      { hasil := hasil, terproses := terproses,
        scroll_attempts := scroll_attempts, iters := 0, escaped := false }

/-- `_gulir_dan_muat_data` (pengikis.py lines 166-272): run the scroll loop
from `scroll_attempts = 0`, `previous_count = 0`, then - unless an exception
escaped the loop - run the final `_ekstrak_data_real_time` pass of line 272 on
the current DOM state (the next unconsumed index of the `entries` stream). -/
def gulir (countE : Nat → Except Unit Nat) (entries : Nat → List Kontainer)
    (scrollRaises : Nat → Bool) : GulirOut :=
  let r := gulirLoop countE entries scrollRaises max_scrolls 0 0 0 [] []
  if r.escaped then r
  else
    let st := ekstrak_data_real_time (entries r.iters) r.hasil r.terproses
    { r with hasil := st.1, terproses := st.2 }

/-- `jalankan` (pengikis.py lines 55-82) as far as the harvested data is
concerned: run the scrolling phase; when an exception escaped it, the
`except PlaywrightError` / `except Exception` arms log and auto-save (lines
71-78) and control falls through to `return self.hasil_scrape`; otherwise
`_ekstrak_data_pengguna` (lines 274-286) returns early when data was already
extracted in real time and otherwise performs one manual extraction with a
fresh `username_terproses` set.  Either way the caller receives the list. -/
def jalankan (countE : Nat → Except Unit Nat) (entries : Nat → List Kontainer)
    (scrollRaises : Nat → Bool) : List (String × String) :=
  let g := gulir countE entries scrollRaises
  if g.escaped then g.hasil
  else if g.hasil = [] then
    (ekstrak_data_real_time (entries (g.iters + 1)) [] []).1
  else g.hasil

/-- The selector-fallback chain of `_buka_popup_daftar` (pengikis.py lines
127-164): walk the ordered `link_selectors` list; `clicks` records, per
strategy, whether `locator(selector).first.click(timeout=5000)` succeeds
(a strategy with no match times out and raises, which the `except` arm turns
into trying the next strategy).  When no strategy succeeds, raise
`PlaywrightError` naming the target button text (line 156). -/
def buka_popup_daftar (teks_tombol : String) (clicks : List Bool) :
    Except String Unit :=
  match clicks with
  | [] => Except.error ("Tidak dapat menemukan tombol " ++ teks_tombol)
  | c :: rest =>
    if c then Except.ok () else buka_popup_daftar teks_tombol rest

/-- Number of parameters, beyond `self`, that `_signal_handler` declares
(pengikis.py line 318: `def _signal_handler(self) -> None`); it declares no
defaults and no varargs. -/
def signal_handler_param_count : Nat := 0

/-- Number of positional arguments the Python runtime passes when it invokes
a handler registered through `signal.signal` (pengikis.py line 42): the
signal number and the current stack frame. -/
def signal_delivery_arg_count : Nat := 2

/-- A Python call binds without `TypeError` exactly when the supplied
positional arguments match the declared parameters, given that the callee
declares no defaults and no varargs. -/
def handler_call_raises_type_error : Bool :=
  decide (signal_handler_param_count ≠ signal_delivery_arg_count)

end Pengikis

/-! ## Merge-loop lemmas -/

namespace ScrapeFollowers

/-- The merge loop only appends: the accumulator on entry is an initial
segment of the accumulator on exit. -/
theorem mergeFound_append (found : List String) :
    ∀ usernames limit, ∃ t, usernames ++ t = mergeFound usernames found limit := by
  induction found with
  | nil =>
    intro u l
    exact ⟨[], by simp [mergeFound]⟩
  | cons x rest ih =>
    intro u l
    by_cases hx : x ∈ u
    · simpa [mergeFound, hx] using ih u l
    · simp only [mergeFound, hx, if_false]
      by_cases hl : l ≤ u.length + 1
      · exact ⟨[x], by simp [hl]⟩
      · obtain ⟨t, ht⟩ := ih (u ++ [x]) l
        refine ⟨x :: t, ?_⟩
        have hl' : ¬ l ≤ (u ++ [x]).length := by simpa using hl
        rw [if_neg hl', ← ht]
        simp

/-- The merge loop never grows the accumulator beyond the cap when it starts
below it. -/
theorem mergeFound_length_le (found : List String) :
    ∀ usernames limit, usernames.length < limit →
      (mergeFound usernames found limit).length ≤ limit := by
  induction found with
  | nil =>
    intro u l h
    simpa [mergeFound] using Nat.le_of_lt h
  | cons x rest ih =>
    intro u l h
    by_cases hx : x ∈ u
    · simpa [mergeFound, hx] using ih u l h
    · simp only [mergeFound, hx, if_false]
      by_cases hl : l ≤ u.length + 1
      · have hl' : l ≤ (u ++ [x]).length := by simpa using hl
        rw [if_pos hl']
        simp only [List.length_append, List.length_cons, List.length_nil]
        omega
      · have hl' : ¬ l ≤ (u ++ [x]).length := by simpa using hl
        rw [if_neg hl']
        refine ih (u ++ [x]) l ?_
        simp only [List.length_append, List.length_cons, List.length_nil]
        omega

/-- The merge loop preserves the no-duplicates property of the accumulator. -/
theorem mergeFound_nodup (found : List String) :
    ∀ usernames limit, usernames.Nodup →
      (mergeFound usernames found limit).Nodup := by
  induction found with
  | nil =>
    intro u l h
    simpa [mergeFound] using h
  | cons x rest ih =>
    intro u l h
    by_cases hx : x ∈ u
    · simpa [mergeFound, hx] using ih u l h
    · have hnd : (u ++ [x]).Nodup := by
        simp [List.nodup_append, h, hx]
      simp only [mergeFound, hx, if_false]
      by_cases hl : l ≤ (u ++ [x]).length
      · simp only [hl, if_true]
        exact hnd
      · simp only [hl, if_false]
        exact ih (u ++ [x]) l hnd

/-- When the cap never intervened (the result is still below the cap), the
merge loop computes exactly the first-discovery-order fold of the extractor
output. -/
theorem mergeFound_eq_firstOccur (found : List String) :
    ∀ usernames limit, (mergeFound usernames found limit).length < limit →
      mergeFound usernames found limit = firstOccurFrom usernames found := by
  induction found with
  | nil =>
    intro u l _
    simp [mergeFound, firstOccurFrom]
  | cons x rest ih =>
    intro u l h
    by_cases hx : x ∈ u
    · rw [mergeFound, if_pos hx] at h ⊢
      rw [firstOccurFrom, if_pos hx]
      exact ih u l h
    · rw [mergeFound, if_neg hx] at h ⊢
      rw [firstOccurFrom, if_neg hx]
      by_cases hl : l ≤ (u ++ [x]).length
      · rw [if_pos hl] at h
        omega
      · rw [if_neg hl] at h ⊢
        exact ih (u ++ [x]) l h

/-- Merging a list whose members are all already recorded changes nothing. -/
theorem mergeFound_self (found : List String) :
    ∀ usernames limit, (∀ y ∈ found, y ∈ usernames) →
      mergeFound usernames found limit = usernames := by
  induction found with
  | nil =>
    intro u l _
    simp [mergeFound]
  | cons x rest ih =>
    intro u l h
    have hx : x ∈ u := h x (by simp)
    rw [mergeFound, if_pos hx]
    exact ih u l (fun y hy => h y (by simp [hy]))

/-- Everything in the first-discovery fold comes from the start state or the
stream, and everything in the start state and the stream ends up in it. -/
theorem firstOccurFrom_mem (found : List String) :
    ∀ usernames, (∀ y ∈ usernames, y ∈ firstOccurFrom usernames found) ∧
      (∀ y ∈ found, y ∈ firstOccurFrom usernames found) := by
  induction found with
  | nil =>
    intro u
    exact ⟨fun y hy => by simpa [firstOccurFrom] using hy, by simp⟩
  | cons x rest ih =>
    intro u
    by_cases hx : x ∈ u
    · rw [firstOccurFrom, if_pos hx]
      refine ⟨(ih u).1, fun y hy => ?_⟩
      rcases List.mem_cons.mp hy with h | h
      · exact h ▸ (ih u).1 x hx
      · exact (ih u).2 y h
    · rw [firstOccurFrom, if_neg hx]
      have hbase : ∀ y ∈ u ++ [x], y ∈ firstOccurFrom (u ++ [x]) rest :=
        (ih (u ++ [x])).1
      refine ⟨fun y hy => hbase y (by simp [hy]), fun y hy => ?_⟩
      rcases List.mem_cons.mp hy with h | h
      · exact h ▸ hbase x (by simp)
      · exact (ih (u ++ [x])).2 y h

/-- Characterization of an iteration that loops again. -/
theorem collectIter_next (found : List String) (sc : Bool) (limit : Nat)
    (u : List String) (p : Int) (a : Nat) (u' : List String) (p' : Int)
    (a' : Nat)
    (h : collectIter found sc limit u p a = StepResult.next u' p' a') :
    u' = mergeFound u found limit ∧ p' = (u'.length : Int) ∧
    a' = (if (u'.length : Int) = p then a + 1 else 0) ∧
    a' ≤ 4 ∧ u'.length < limit ∧ sc = true := by
  unfold collectIter at h
  by_cases h1 : max_attempts_no_change ≤
      (if ((mergeFound u found limit).length : Int) = p then a + 1 else 0)
  · rw [if_pos h1] at h
    exact absurd h (by simp)
  · rw [if_neg h1] at h
    by_cases h2 : limit ≤ (mergeFound u found limit).length
    · rw [if_pos h2] at h
      exact absurd h (by simp)
    · rw [if_neg h2] at h
      by_cases h3 : sc = true
      · rw [if_pos h3] at h
        cases h
        refine ⟨rfl, rfl, rfl, ?_, ?_, h3⟩
        · simp only [max_attempts_no_change] at h1
          omega
        · omega
      · rw [if_neg h3] at h
        exact absurd h (by simp)

/-- Characterization of an iteration that stops the loop. -/
theorem collectIter_stop (found : List String) (sc : Bool) (limit : Nat)
    (u : List String) (p : Int) (a : Nat) (u' : List String) (e : CollectExit)
    (h : collectIter found sc limit u p a = StepResult.stop u' e) :
    u' = mergeFound u found limit ∧
    (e = CollectExit.fuelOut → False) ∧
    (e = CollectExit.noChange → (u'.length : Int) = p) ∧
    (e = CollectExit.scrollFailed → u'.length < limit) := by
  unfold collectIter at h
  by_cases h1 : max_attempts_no_change ≤
      (if ((mergeFound u found limit).length : Int) = p then a + 1 else 0)
  · rw [if_pos h1] at h
    cases h
    refine ⟨rfl, by simp, fun _ => ?_, by simp⟩
    by_cases hp : ((mergeFound u found limit).length : Int) = p
    · exact hp
    · rw [if_neg hp] at h1
      simp [max_attempts_no_change] at h1
  · rw [if_neg h1] at h
    by_cases h2 : limit ≤ (mergeFound u found limit).length
    · rw [if_pos h2] at h
      cases h
      exact ⟨rfl, by simp, by simp, by simp⟩
    · rw [if_neg h2] at h
      by_cases h3 : sc = true
      · rw [if_pos h3] at h
        exact absurd h (by simp)
      · rw [if_neg h3] at h
        cases h
        exact ⟨rfl, by simp, by simp, fun _ => by omega⟩

/-- The scroll loop terminates before running out of fuel: the supplied fuel
exceeds the lexicographic measure cap-distance/no-growth-margin that every
continuing iteration strictly decreases. -/
theorem collectLoop_ne_fuelOut (extract : Nat → List String)
    (scroll : Nat → Bool) (limit : Nat) :
    ∀ fuel u (p : Int) a i, collectInv limit u p a →
      6 * (limit - u.length) + (5 - a) +
        (if p = (u.length : Int) then 0 else 1) < fuel →
      (collectLoop extract scroll limit fuel i u p a).2.1 ≠
        CollectExit.fuelOut := by
  intro fuel
  induction fuel with
  | zero =>
    intro u p a i _ hM
    omega
  | succ n ih =>
    intro u p a i hInv hM
    rw [collectLoop]
    by_cases hg : u.length < limit
    · rw [if_pos hg]
      rcases hIt : collectIter (extract i) (scroll i) limit u p a with
        ⟨u', p', a'⟩ | ⟨u', e⟩
      · obtain ⟨hu', hp', ha', ha4, hlt, _⟩ :=
          collectIter_next _ _ _ _ _ _ _ _ _ hIt
        obtain ⟨t, ht⟩ := mergeFound_append (extract i) u limit
        have hlen : u.length ≤ u'.length := by
          rw [hu', ← ht]
          simp
        refine ih u' p' a' (i + 1) (Or.inr ⟨hp', hlt, ha4⟩) ?_
        have hz : (if p' = (u'.length : Int) then 0 else 1) = 0 := by
          rw [hp']
          simp
        rw [hz]
        rcases hInv with ⟨hpm, ha0, hu0⟩ | ⟨hpe, hul, hale⟩
        · have h0 : u.length = 0 := by rw [hu0]; rfl
          have hne : ¬ ((u'.length : Int) = p) := by
            rw [hpm]
            omega
          rw [if_neg hne] at ha'
          rw [h0] at hM
          have h1 : (if p = ((0 : Nat) : Int) then 0 else 1) = 1 := by
            rw [hpm]
            simp
          rw [h1] at hM
          omega
        · have h0 : (if p = (u.length : Int) then 0 else 1) = 0 := by
            rw [hpe]
            simp
          rw [h0] at hM
          by_cases hc : ((u'.length : Int) = p)
          · rw [if_pos hc] at ha'
            have : u'.length = u.length := by
              rw [hpe] at hc
              omega
            omega
          · rw [if_neg hc] at ha'
            have : u.length < u'.length := by
              rw [hpe] at hc
              omega
            omega
      · obtain ⟨_, hfo, _, _⟩ := collectIter_stop _ _ _ _ _ _ _ _ hIt
        exact hfo
    · rw [if_neg hg]
      simp

/-- A loop that stopped via the no-growth `break` or the failed-scroll `break`
stopped strictly below the cap. -/
theorem collectLoop_stop_lt (extract : Nat → List String)
    (scroll : Nat → Bool) (limit : Nat) :
    ∀ fuel u (p : Int) a i, collectInv limit u p a →
      ((collectLoop extract scroll limit fuel i u p a).2.1 =
          CollectExit.noChange ∨
        (collectLoop extract scroll limit fuel i u p a).2.1 =
          CollectExit.scrollFailed) →
      (collectLoop extract scroll limit fuel i u p a).1.length < limit := by
  intro fuel
  induction fuel with
  | zero =>
    intro u p a i _ he
    rcases he with h | h <;> exact absurd h (by simp [collectLoop])
  | succ n ih =>
    intro u p a i hInv he
    rw [collectLoop] at he ⊢
    by_cases hg : u.length < limit
    · rw [if_pos hg] at he ⊢
      rcases hIt : collectIter (extract i) (scroll i) limit u p a with
        ⟨u', p', a'⟩ | ⟨u', e⟩
      · rw [hIt] at he
        obtain ⟨hu', hp', ha', ha4, hlt, _⟩ :=
          collectIter_next _ _ _ _ _ _ _ _ _ hIt
        exact ih u' p' a' (i + 1) (Or.inr ⟨hp', hlt, ha4⟩) he
      · rw [hIt] at he
        obtain ⟨hu', _, hnc, hsf⟩ := collectIter_stop _ _ _ _ _ _ _ _ hIt
        rcases he with h | h
        · have hpe : (u'.length : Int) = p := hnc h
          show u'.length < limit
          rcases hInv with ⟨hpm, _, _⟩ | ⟨hpe', hul, _⟩
          · rw [hpm] at hpe
            omega
          · rw [hpe'] at hpe
            omega
        · show u'.length < limit
          exact hsf h
    · rw [if_neg hg] at he
      rcases he with h | h <;> exact absurd h (by simp)

/-- The accumulator size never exceeds the cap at any reachable loop state. -/
theorem collectLoop_length_le (extract : Nat → List String)
    (scroll : Nat → Bool) (limit : Nat) :
    ∀ fuel u (p : Int) a i, u.length ≤ limit →
      (collectLoop extract scroll limit fuel i u p a).1.length ≤ limit := by
  intro fuel
  induction fuel with
  | zero =>
    intro u p a i h
    simpa [collectLoop] using h
  | succ n ih =>
    intro u p a i h
    rw [collectLoop]
    by_cases hg : u.length < limit
    · rw [if_pos hg]
      rcases hIt : collectIter (extract i) (scroll i) limit u p a with
        ⟨u', p', a'⟩ | ⟨u', e⟩
      · obtain ⟨hu', _, _, _, hlt, _⟩ := collectIter_next _ _ _ _ _ _ _ _ _ hIt
        exact ih u' p' a' (i + 1) (Nat.le_of_lt hlt)
      · obtain ⟨hu', _, _, _⟩ := collectIter_stop _ _ _ _ _ _ _ _ hIt
        have := mergeFound_length_le (extract i) u limit hg
        rw [← hu'] at this
        simpa using this
    · rw [if_neg hg]
      simpa using h

/-- Steady state under a constant extractor output that has been fully merged
below the cap: every further iteration merges nothing new, so the no-growth
counter climbs by one per iteration until it reaches the threshold and the
loop stops, `5 - a` iterations later, with the accumulator unchanged. -/
theorem collectLoop_const (F : List String) (scroll : Nat → Bool) (limit : Nat)
    (hscroll : ∀ i, scroll i = true)
    (hU : (mergeFound [] F limit).length < limit) :
    ∀ fuel a i, a ≤ 4 → 5 - a ≤ fuel →
      collectLoop (fun _ => F) scroll limit fuel i (mergeFound [] F limit)
        ((mergeFound [] F limit).length : Int) a =
      (mergeFound [] F limit, CollectExit.noChange, i + (5 - a)) := by
  have hFmem : ∀ y ∈ F, y ∈ mergeFound [] F limit := by
    rw [mergeFound_eq_firstOccur F [] limit hU]
    exact (firstOccurFrom_mem F []).2
  have hself : mergeFound (mergeFound [] F limit) F limit =
      mergeFound [] F limit := mergeFound_self F _ limit hFmem
  intro fuel
  induction fuel with
  | zero =>
    intro a i ha hf
    omega
  | succ n ih =>
    intro a i ha hf
    rw [collectLoop, if_pos hU]
    have hsc := hscroll i
    by_cases ha4 : 4 ≤ a
    · have ha' : a = 4 := by omega
      subst ha'
      have hstop : collectIter F (scroll i) limit (mergeFound [] F limit)
          ((mergeFound [] F limit).length : Int) 4 =
          StepResult.stop (mergeFound [] F limit) CollectExit.noChange := by
        simp [collectIter, hself, max_attempts_no_change]
      rw [hstop]
    · have hc1 : ¬ (max_attempts_no_change ≤ a + 1) := by
        simp only [max_attempts_no_change]
        omega
      have hc2 : ¬ (limit ≤ (mergeFound [] F limit).length) := by omega
      have hnext : collectIter F (scroll i) limit (mergeFound [] F limit)
          ((mergeFound [] F limit).length : Int) a =
          StepResult.next (mergeFound [] F limit)
            ((mergeFound [] F limit).length : Int) (a + 1) := by
        simp [collectIter, hself, hc1, hc2, hsc]
      rw [hnext]
      show collectLoop (fun _ => F) scroll limit n (i + 1)
        (mergeFound [] F limit) ((mergeFound [] F limit).length : Int) (a + 1) =
        (mergeFound [] F limit, CollectExit.noChange, i + (5 - a))
      rw [ih (a + 1) (i + 1) (by omega) (by omega)]
      have harith : (i + 1) + (5 - (a + 1)) = i + (5 - a) := by omega
      rw [harith]

end ScrapeFollowers

/-! ## Extraction lemmas for the pengikis harvester -/

namespace Pengikis

/-- One `_ekstrak_data_real_time` pass preserves the session invariant: every
recorded username is in the processed set, and the recorded usernames carry no
duplicate. -/
theorem ekstrak_invariant (ks : List Kontainer) :
    ∀ hasil terproses, (∀ q ∈ hasil, q.1 ∈ terproses) →
      (hasil.map Prod.fst).Nodup →
      (∀ q ∈ (ekstrak_data_real_time ks hasil terproses).1,
        q.1 ∈ (ekstrak_data_real_time ks hasil terproses).2) ∧
      ((ekstrak_data_real_time ks hasil terproses).1.map Prod.fst).Nodup := by
  induction ks with
  | nil =>
    intro h t hsub hnd
    exact ⟨by simpa [ekstrak_data_real_time] using hsub,
      by simpa [ekstrak_data_real_time] using hnd⟩
  | cons k rest ih =>
    intro h t hsub hnd
    simp only [ekstrak_data_real_time]
    by_cases h1 : username_of k = "" ∨ username_of k ∈ t
    · rw [if_pos h1]
      exact ih h t hsub hnd
    · rw [if_neg h1]
      by_cases h2 : valid_username (username_of k) = true
      · rw [if_pos h2]
        have hnotin : username_of k ∉ t := fun hc => h1 (Or.inr hc)
        refine ih _ _ ?_ ?_
        · intro q hq
          rcases List.mem_append.mp hq with hq | hq
          · exact List.mem_append.mpr (Or.inl (hsub q hq))
          · simp at hq
            simp [hq]
        · rw [List.map_append]
          rw [List.nodup_append]
          refine ⟨hnd, by simp, ?_⟩
          intro x hx hx'
          simp at hx'
          rcases List.mem_map.mp hx with ⟨q, hq, hqx⟩
          exact hnotin (hx' ▸ hqx ▸ hsub q hq)
      · rw [if_neg h2]
        exact ih h t hsub hnd

/-- One `_ekstrak_data_real_time` pass only appends to `hasil_scrape`. -/
theorem ekstrak_append (ks : List Kontainer) :
    ∀ hasil terproses,
      ∃ t2, hasil ++ t2 = (ekstrak_data_real_time ks hasil terproses).1 := by
  induction ks with
  | nil =>
    intro h t
    exact ⟨[], by simp [ekstrak_data_real_time]⟩
  | cons k rest ih =>
    intro h t
    simp only [ekstrak_data_real_time]
    by_cases h1 : username_of k = "" ∨ username_of k ∈ t
    · rw [if_pos h1]
      exact ih h t
    · rw [if_neg h1]
      by_cases h2 : valid_username (username_of k) = true
      · rw [if_pos h2]
        obtain ⟨t2, ht2⟩ := ih (h ++ [(username_of k, k.nama)])
          (t ++ [username_of k])
        exact ⟨(username_of k, k.nama) :: t2, by rw [← ht2]; simp⟩
      · rw [if_neg h2]
        exact ih h t

/-- The session fold preserves the invariant from any starting state. -/
theorem sesi_fold_invariant (outs : List (List Kontainer)) :
    ∀ st : List (String × String) × List String,
      (∀ q ∈ st.1, q.1 ∈ st.2) → (st.1.map Prod.fst).Nodup →
      (∀ q ∈ (outs.foldl
          (fun st ks => ekstrak_data_real_time ks st.1 st.2) st).1,
        q.1 ∈ (outs.foldl
          (fun st ks => ekstrak_data_real_time ks st.1 st.2) st).2) ∧
      ((outs.foldl
          (fun st ks => ekstrak_data_real_time ks st.1 st.2) st).1.map
        Prod.fst).Nodup := by
  induction outs with
  | nil =>
    intro st hsub hnd
    exact ⟨hsub, hnd⟩
  | cons ks rest ih =>
    intro st hsub hnd
    obtain ⟨hsub', hnd'⟩ := ekstrak_invariant ks st.1 st.2 hsub hnd
    exact ih (ekstrak_data_real_time ks st.1 st.2) hsub' hnd'

/-- The session fold only appends to the accumulated records. -/
theorem sesi_fold_append (outs : List (List Kontainer)) :
    ∀ st : List (String × String) × List String,
      ∃ t2, st.1 ++ t2 = (outs.foldl
        (fun st ks => ekstrak_data_real_time ks st.1 st.2) st).1 := by
  induction outs with
  | nil =>
    intro st
    exact ⟨[], by simp⟩
  | cons ks rest ih =>
    intro st
    obtain ⟨t2, ht2⟩ := ekstrak_append ks st.1 st.2
    obtain ⟨t3, ht3⟩ := ih (ekstrak_data_real_time ks st.1 st.2)
    refine ⟨t2 ++ t3, ?_⟩
    simp only [List.foldl_cons]
    rw [← ht3, ← ht2]
    simp

/-- Iteration and counter bounds of the `_gulir_dan_muat_data` loop: the
number of iterations executed never exceeds the remaining budget up to
`max_scrolls`, and `scroll_attempts` only moves up, by at most one per
iteration. -/
theorem gulirLoop_bounds (countE : Nat → Except Unit Nat)
    (entries : Nat → List Kontainer) (sr : Nat → Bool) :
    ∀ fuel i sa pc hasil terproses,
      (gulirLoop countE entries sr fuel i sa pc hasil terproses).iters ≤
        max_scrolls - sa ∧
      sa ≤ (gulirLoop countE entries sr fuel i sa pc hasil
        terproses).scroll_attempts ∧
      (gulirLoop countE entries sr fuel i sa pc hasil
          terproses).scroll_attempts ≤
        sa + (gulirLoop countE entries sr fuel i sa pc hasil terproses).iters := by
  intro fuel
  induction fuel with
  | zero =>
    intro i sa pc h t
    simp [gulirLoop]
  | succ n ih =>
    intro i sa pc h t
    simp only [gulirLoop]
    by_cases hg : sa < max_scrolls
    · rw [if_pos hg]
      cases hc : countE i with
      | error e =>
        dsimp only
        omega
      | ok current =>
        dsimp only
        by_cases heq : current = pc
        · rw [if_pos heq]
          by_cases h5 : sa < 5
          · rw [if_pos h5]
            obtain ⟨hi, hm, hu⟩ := ih (i + 1) (sa + 1) pc
              ((if pc < current then
                  ekstrak_data_real_time (entries i) h t else (h, t)).1)
              ((if pc < current then
                  ekstrak_data_real_time (entries i) h t else (h, t)).2)
            dsimp only
            omega
          · rw [if_neg h5]
            dsimp only
            omega
        · rw [if_neg heq]
          by_cases hbig : 100000 < current
          · rw [if_pos hbig]
            dsimp only
            omega
          · rw [if_neg hbig]
            obtain ⟨hi, hm, hu⟩ := ih (i + 1) (sa + 1) current
              ((if pc < current then
                  ekstrak_data_real_time (entries i) h t else (h, t)).1)
              ((if pc < current then
                  ekstrak_data_real_time (entries i) h t else (h, t)).2)
            dsimp only
            omega
    · rw [if_neg hg]
      simp

/-- Exceptions of the scroll-command block are absorbed by the
`try`/`except` of lines 187-222: which iterations raise there has no bearing
on the observable outcome of the loop. -/
theorem gulirLoop_scroll_indep (countE : Nat → Except Unit Nat)
    (entries : Nat → List Kontainer) (sr sr' : Nat → Bool) :
    ∀ fuel i sa pc hasil terproses,
      gulirLoop countE entries sr fuel i sa pc hasil terproses =
      gulirLoop countE entries sr' fuel i sa pc hasil terproses := by
  intro fuel
  induction fuel with
  | zero =>
    intro i sa pc h t
    rfl
  | succ n ih =>
    intro i sa pc h t
    simp only [gulirLoop]
    by_cases hg : sa < max_scrolls
    · rw [if_pos hg, if_pos hg]
      cases hc : countE i with
      | error e => dsimp only
      | ok current =>
        dsimp only
        by_cases heq : current = pc
        · rw [if_pos heq, if_pos heq]
          by_cases h5 : sa < 5
          · rw [if_pos h5, if_pos h5, ih]
          · rw [if_neg h5, if_neg h5]
        · rw [if_neg heq, if_neg heq]
          by_cases hbig : 100000 < current
          · rw [if_pos hbig, if_pos hbig]
          · rw [if_neg hbig, if_neg hbig, ih]
    · rw [if_neg hg, if_neg hg]

/-- Every record `_ekstrak_data_real_time` appends passes the line-415
username filter, provided the records already present do. -/
theorem ekstrak_valid (ks : List Kontainer) :
    ∀ hasil terproses, (∀ q ∈ hasil, valid_username q.1 = true) →
      ∀ q ∈ (ekstrak_data_real_time ks hasil terproses).1,
        valid_username q.1 = true := by
  induction ks with
  | nil =>
    intro h t hprev
    simpa [ekstrak_data_real_time] using hprev
  | cons k rest ih =>
    intro h t hprev
    simp only [ekstrak_data_real_time]
    by_cases h1 : username_of k = "" ∨ username_of k ∈ t
    · rw [if_pos h1]
      exact ih h t hprev
    · rw [if_neg h1]
      by_cases h2 : valid_username (username_of k) = true
      · rw [if_pos h2]
        refine ih _ _ ?_
        intro q hq
        rcases List.mem_append.mp hq with hq | hq
        · exact hprev q hq
        · simp at hq
          simp [hq, h2]
      · rw [if_neg h2]
        exact ih h t hprev

/-- A container whose username fails the line-415 filter is dropped without
any effect on the accumulated state. -/
theorem ekstrak_invalid_skip (k : Kontainer) (h' : List (String × String))
    (t' : List String) (hv : valid_username (username_of k) = false) :
    ekstrak_data_real_time [k] h' t' = (h', t') := by
  simp only [ekstrak_data_real_time]
  by_cases h1 : username_of k = "" ∨ username_of k ∈ t'
  · rw [if_pos h1]
  · rw [if_neg h1, if_neg (by simp [hv])]

end Pengikis

/-! ## Claim theorems -/

open ScrapeFollowers Pengikis

/-- Claim C1: for every sequence of extractor outputs merged during one
harvest session, the accumulator never contains two records with the same
username, and the accumulator after any prefix of the outputs is an initial
segment of the final accumulator - later outputs (in particular outputs whose
visible set is a superset of an earlier one) only append records with new
usernames and never modify an already-recorded record, display name included
(first-write-wins on duplicate identifier). -/
theorem C1_unique_first_write_wins (outs : List (List Kontainer)) :
    ((sesi outs).1.map Prod.fst).Nodup ∧
    ∀ k, ∃ t2, (sesi (outs.take k)).1 ++ t2 = (sesi outs).1 := by
  constructor
  · exact (sesi_fold_invariant outs ([], []) (by simp) (by simp)).2
  · intro k
    have hsplit : Pengikis.sesi outs = (outs.drop k).foldl
        (fun st ks => ekstrak_data_real_time ks st.1 st.2)
        (sesi (outs.take k)) := by
      unfold Pengikis.sesi
      conv_lhs => rw [← List.take_append_drop k outs]
      rw [List.foldl_append]
    rw [hsplit]
    exact sesi_fold_append (outs.drop k) (sesi (outs.take k))

/-- Claim C2: each iteration whose merge leaves the accumulator size equal to
the recorded previous size sets the no-growth counter to its successor, and an
iteration with growth resets it to zero; consequently, with an extractor that
returns the same fixed output on every iteration (its merge staying below the
cap), the session stops with exit `noChange` after exactly
`max_attempts_no_change + 1` iterations - one discovery iteration followed by
exactly the threshold (5) of consecutive no-growth iterations - and the
result is the fixed output in first-discovery order. -/
theorem C2_no_growth_counter (F : List String) (scroll : Nat → Bool)
    (limit : Nat) (hscroll : ∀ i, scroll i = true)
    (hlt : (mergeFound [] F limit).length < limit) :
    collect_usernames_from_followers_dialog (fun _ => F) scroll limit =
      (firstOccurFrom [] F, CollectExit.noChange, max_attempts_no_change + 1) ∧
    (∀ found sc lim (u : List String) (p : Int) a u' p' a',
      collectIter found sc lim u p a = StepResult.next u' p' a' →
      p' = (u'.length : Int) ∧
      a' = (if (u'.length : Int) = p then a + 1 else 0)) := by
  constructor
  · have hlim : 0 < limit := by omega
    have h1 : collectLoop (fun _ => F) scroll limit (6 * limit + 7) 0 []
        (-1) 0 = (mergeFound [] F limit, CollectExit.noChange, 6) := by
      have hfuel : 6 * limit + 7 = (6 * limit + 6) + 1 := by omega
      rw [hfuel, collectLoop, if_pos (by simpa using hlim)]
      have hIter : collectIter F (scroll 0) limit [] (-1) 0 =
          StepResult.next (mergeFound [] F limit)
            ((mergeFound [] F limit).length : Int) 0 := by
        have hne : ¬ (((mergeFound [] F limit).length : Int) = -1) := by
          omega
        have hc1 : ¬ (max_attempts_no_change ≤ 0) := by
          simp [max_attempts_no_change]
        have hc2 : ¬ (limit ≤ (mergeFound [] F limit).length) := by omega
        simp [collectIter, hne, hc1, hc2, hscroll 0]
      rw [hIter]
      show collectLoop (fun _ => F) scroll limit (6 * limit + 6) 1
          (mergeFound [] F limit) ((mergeFound [] F limit).length : Int) 0 = _
      rw [collectLoop_const F scroll limit hscroll hlt (6 * limit + 6) 0 1
        (by omega) (by omega)]
    simp only [collect_usernames_from_followers_dialog, h1]
    rw [List.take_of_length_le (by omega),
      mergeFound_eq_firstOccur F [] limit hlt]
    rfl
  · intro found sc lim u p a u' p' a' hstep
    obtain ⟨_, hp', ha', _, _, _⟩ := collectIter_next _ _ _ _ _ _ _ _ _ hstep
    exact ⟨hp', ha'⟩

/-- Claim C2, witness: the constant extractor output ["a", "b", "a"] under
cap 5 makes the session stop by the no-growth threshold after 6 iterations
with accumulator ["a", "b"]. -/
theorem C2_no_growth_counter_witness :
    collect_usernames_from_followers_dialog (fun _ => ["a", "b", "a"])
      (fun _ => true) 5 = (["a", "b"], CollectExit.noChange, 6) :=
  (C2_no_growth_counter ["a", "b", "a"] (fun _ => true) 5 (fun _ => rfl)
    (by decide)).1.trans (by decide)

/-- Claim C10: every record the pengikis harvester appends has a username
that is nonempty, nonempty after stripping whitespace, free of the space
character, and at most 30 characters long (the conjunction checked by
`valid_username`); extracted identifiers that fail the filter are dropped
with no effect on the accumulated state. -/
theorem C10_username_filter (ks : List Kontainer)
    (hasil : List (String × String)) (terproses : List String)
    (hprev : ∀ q ∈ hasil, valid_username q.1 = true) :
    (∀ q ∈ (ekstrak_data_real_time ks hasil terproses).1,
      valid_username q.1 = true) ∧
    (∀ k h' t', valid_username (username_of k) = false →
      ekstrak_data_real_time [k] h' t' = (h', t')) :=
  ⟨ekstrak_valid ks hasil terproses hprev,
    fun k h' t' hv => ekstrak_invalid_skip k h' t' hv⟩

/-- Claim C3: with a configured cap, the accumulator never exceeds the cap -
neither inside the merge of a single iteration entered below the cap, nor at
any loop state, nor in the final result - and a result that fills the cap
exactly came from the cap-reached exit, whose status is success. -/
theorem C3_cap_invariant (extract : Nat → List String) (scroll : Nat → Bool)
    (limit : Nat) :
    (∀ found usernames, usernames.length < limit →
      (mergeFound usernames found limit).length ≤ limit) ∧
    (∀ fuel u (p : Int) a i, u.length ≤ limit →
      (collectLoop extract scroll limit fuel i u p a).1.length ≤ limit) ∧
    (collect_usernames_from_followers_dialog extract scroll limit).1.length ≤
      limit ∧
    (0 < limit →
      (collect_usernames_from_followers_dialog extract scroll
        limit).1.length = limit →
      collectStatus (collect_usernames_from_followers_dialog extract scroll
        limit) = Status.success) := by
  refine ⟨fun found u h => mergeFound_length_le found u limit h,
    fun fuel u p a i h => collectLoop_length_le extract scroll limit fuel
      u p a i h, ?_, ?_⟩
  · simp only [collect_usernames_from_followers_dialog]
    simp [List.length_take]
  · intro hpos hlen
    have hInv : collectInv limit [] (-1) 0 := Or.inl ⟨rfl, rfl, rfl⟩
    have hnf : (collectLoop extract scroll limit (6 * limit + 7) 0 [] (-1)
        0).2.1 ≠ CollectExit.fuelOut := by
      refine collectLoop_ne_fuelOut extract scroll limit (6 * limit + 7) []
        (-1) 0 0 hInv ?_
      simp
    have hle : (collectLoop extract scroll limit (6 * limit + 7) 0 [] (-1)
        0).1.length ≤ limit :=
      collectLoop_length_le extract scroll limit (6 * limit + 7) [] (-1) 0 0
        (by simp)
    simp only [collect_usernames_from_followers_dialog] at hlen ⊢
    rw [List.length_take] at hlen
    have heq : (collectLoop extract scroll limit (6 * limit + 7) 0 [] (-1)
        0).1.length = limit := by omega
    cases hE : (collectLoop extract scroll limit (6 * limit + 7) 0 [] (-1)
        0).2.1 with
    | limitReached => simp [collectStatus, hE]
    | noChange =>
      have hlt := collectLoop_stop_lt extract scroll limit (6 * limit + 7)
        [] (-1) 0 0 hInv (Or.inl hE)
      exact absurd heq (by omega)
    | scrollFailed =>
      have hlt := collectLoop_stop_lt extract scroll limit (6 * limit + 7)
        [] (-1) 0 0 hInv (Or.inr hE)
      exact absurd heq (by omega)
    | fuelOut => exact absurd hE hnf

/-- Claim C3, witness: three constant candidates under cap 2 fill the cap
exactly and the session reports success. -/
theorem C3_cap_invariant_witness :
    (collect_usernames_from_followers_dialog (fun _ => ["a", "b", "c"])
      (fun _ => true) 2).1.length ≤ 2 ∧
    collectStatus (collect_usernames_from_followers_dialog
      (fun _ => ["a", "b", "c"]) (fun _ => true) 2) = Status.success :=
  ⟨(C3_cap_invariant (fun _ => ["a", "b", "c"]) (fun _ => true) 2).2.2.1,
    (C3_cap_invariant (fun _ => ["a", "b", "c"]) (fun _ => true) 2).2.2.2
      (by decide) (by decide)⟩

/-- Claim C4: with cap 5 and extractor outputs {a,b}, then {a,b,c,d}, then
{a,b,c,d,e,f}, the harvest stops at iteration 3 with entities exactly
[a,b,c,d,e] - first-discovery order truncated at the cap - and status
success. -/
theorem C4_order_scenario :
    collect_usernames_from_followers_dialog
      (fun i => if i = 0 then ["a", "b"]
                else if i = 1 then ["a", "b", "c", "d"]
                else ["a", "b", "c", "d", "e", "f"])
      (fun _ => true) 5 =
      (["a", "b", "c", "d", "e"], CollectExit.limitReached, 3) ∧
    collectStatus (collect_usernames_from_followers_dialog
      (fun i => if i = 0 then ["a", "b"]
                else if i = 1 then ["a", "b", "c", "d"]
                else ["a", "b", "c", "d", "e", "f"])
      (fun _ => true) 5) = Status.success := by
  decide

/-- Claim C5, counterexample: in scrape_followers an exception raised by the
extraction evaluate of the second iteration escapes
`collect_usernames_from_followers_dialog` - the caller observes the
exception, not the username accumulated on the first iteration, so an
in-iteration exception is neither caught nor treated as a zero-growth
iteration. -/
theorem C5_iteration_exception_escapes :
    collectE (fun i => if i = 0 then Except.ok ["a"] else Except.error ())
      (fun _ => true) 5 = Except.error () := by
  rfl

/-- Claim C5 (amended): in the pengikis harvester, exceptions raised by the
scroll-command block inside an iteration are caught and the iteration
continues - the session outcome is independent of which iterations raise
there - and when the unprotected count query raises and escapes the loop,
`jalankan` still hands the caller the accumulated records; in
scrape_followers, by contrast, a per-iteration extraction exception
propagates to the caller (see the counterexample). -/
theorem C5_scroll_exceptions_absorbed (countE : Nat → Except Unit Nat)
    (entries : Nat → List Kontainer) (sr sr' : Nat → Bool)
    (hesc : (gulir countE entries sr).escaped = true) :
    gulir countE entries sr = gulir countE entries sr' ∧
    jalankan countE entries sr = (gulir countE entries sr).hasil := by
  constructor
  · simp only [gulir]
    rw [gulirLoop_scroll_indep countE entries sr sr']
  · simp [jalankan, hesc]

/-- Claim C5 (amended), witness: with a count query that raises on the first
iteration, the loop escapes, the outcome ignores the scroll-raise pattern,
and `jalankan` returns the (empty) accumulated record list. -/
theorem C5_scroll_exceptions_absorbed_witness :
    gulir (fun _ => Except.error ()) (fun _ => []) (fun _ => false) =
      gulir (fun _ => Except.error ()) (fun _ => []) (fun _ => true) ∧
    jalankan (fun _ => Except.error ()) (fun _ => []) (fun _ => false) =
      (gulir (fun _ => Except.error ()) (fun _ => [])
        (fun _ => false)).hasil :=
  C5_scroll_exceptions_absorbed (fun _ => Except.error ()) (fun _ => [])
    (fun _ => false) (fun _ => true) (by rfl)

/-- Claim C6 (code bug): the Python runtime invokes a handler registered via
`signal.signal` with two positional arguments, but `_signal_handler` declares
none beyond `self`, so delivering SIGINT raises `TypeError` instead of
running the auto-save-and-exit body of the handler. -/
theorem C6_signal_handler_arity : handler_call_raises_type_error = true := rfl

/-- Claim C7: `save_debug_artifacts` never lets a capture failure escape
(every combination of failing steps still returns normally), and when no
strategy resolves the followers entry point the run ends on the exit-code-2
path - status stalled - with an empty username list and exactly one debug
capture. -/
theorem C7_debug_capture_once (extract : Nat → List String)
    (scroll : Nat → Bool) (limit : Nat) :
    run_scrape ModalOutcome.noLinkFound extract scroll limit = (2, 1, []) ∧
    run_scrape_status
      (run_scrape ModalOutcome.noLinkFound extract scroll limit) =
      Status.stalled ∧
    (∀ shot content fileWrite : Except Unit Unit, ∃ out,
      save_debug_artifacts shot content fileWrite = Except.ok out) := by
  refine ⟨rfl, rfl, ?_⟩
  intro s c w
  cases s with
  | error e => exact ⟨SaveOutcome.logged, rfl⟩
  | ok v =>
    cases c with
    | error e => exact ⟨SaveOutcome.logged, rfl⟩
    | ok v2 =>
      cases w with
      | error e => exact ⟨SaveOutcome.logged, rfl⟩
      | ok v3 => exact ⟨SaveOutcome.saved, rfl⟩

/-- Claim C8: the resolver tries its ordered strategies and the first
strategy with at least one match wins, ties resolved to the first DOM-order
match; when every strategy is empty the scrape_followers cascade returns no
handle, and the pengikis cascade reports a failure naming the target. -/
theorem C8_resolver_first_match {α : Type} (pre : List (List α)) (x : α)
    (xs : List α) (rest : List (List α)) (teks : String)
    (clicks : List Bool) (hpre : ∀ s ∈ pre, s = [])
    (hclicks : ∀ c ∈ clicks, c = false) :
    resolveFirst (pre ++ (x :: xs) :: rest) = some x ∧
    resolveFirst pre = none ∧
    buka_popup_daftar teks clicks =
      Except.error ("Tidak dapat menemukan tombol " ++ teks) := by
  refine ⟨?_, ?_, ?_⟩
  · induction pre with
    | nil => rfl
    | cons s ps ih =>
      have hs : s = [] := hpre s (by simp)
      subst hs
      simp only [List.cons_append, resolveFirst]
      exact ih (fun s hs => hpre s (by simp [hs]))
  · induction pre with
    | nil => rfl
    | cons s ps ih =>
      have hs : s = [] := hpre s (by simp)
      subst hs
      simp only [resolveFirst]
      exact ih (fun s hs => hpre s (by simp [hs]))
  · induction clicks with
    | nil => rfl
    | cons c cs ih =>
      have hcf : c = false := hclicks c (by simp)
      subst hcf
      simp only [buka_popup_daftar]
      exact ih (fun c hc => hclicks c (by simp [hc]))

/-- Claim C8, witness: with an empty first strategy, the first match 7 of the
second strategy wins; an all-empty list yields no handle; an all-failing
click cascade raises the error naming the followers button. -/
theorem C8_resolver_first_match_witness :
    resolveFirst [([] : List Nat), [7, 8]] = some 7 ∧
    resolveFirst [([] : List Nat)] = none ∧
    buka_popup_daftar "followers" [false, false] =
      Except.error ("Tidak dapat menemukan tombol " ++ "followers") :=
  C8_resolver_first_match [([] : List Nat)] 7 [8] [] "followers"
    [false, false] (by simp) (by simp)

/-- Claim C9: the pengikis iteration counter never decreases, grows by at
most one per executed iteration, and the loop runs at most `max_scrolls`
iterations whatever the extractor and count behaviour - in particular under
a steady trickle of one new item per iteration; the scrape_followers loop
likewise never exhausts its fuel, so its session always terminates through
one of the three coded exits. -/
theorem C9_hard_ceiling (countE : Nat → Except Unit Nat)
    (entries : Nat → List Kontainer) (sr : Nat → Bool)
    (extract : Nat → List String) (scroll : Nat → Bool) (limit : Nat) :
    (gulir countE entries sr).iters ≤ max_scrolls ∧
    (∀ fuel i sa pc h t,
      sa ≤ (gulirLoop countE entries sr fuel i sa pc h t).scroll_attempts ∧
      (gulirLoop countE entries sr fuel i sa pc h t).scroll_attempts ≤
        sa + (gulirLoop countE entries sr fuel i sa pc h t).iters ∧
      (gulirLoop countE entries sr fuel i sa pc h t).iters ≤
        max_scrolls - sa) ∧
    decide ((collect_usernames_from_followers_dialog extract scroll
      limit).2.1 = CollectExit.fuelOut) = false := by
  refine ⟨?_, ?_, ?_⟩
  · have h := (gulirLoop_bounds countE entries sr max_scrolls 0 0 0 [] []).1
    simp only [gulir]
    by_cases he : (gulirLoop countE entries sr max_scrolls 0 0 0 []
        []).escaped = true
    · rw [if_pos he]
      omega
    · rw [if_neg he]
      dsimp only
      omega
  · intro fuel i sa pc h t
    obtain ⟨h1, h2, h3⟩ := gulirLoop_bounds countE entries sr fuel i sa pc h t
    exact ⟨h2, h3, h1⟩
  · apply decide_eq_false
    have hInv : collectInv limit [] (-1) 0 := Or.inl ⟨rfl, rfl, rfl⟩
    have hnf : (collectLoop extract scroll limit (6 * limit + 7) 0 [] (-1)
        0).2.1 ≠ CollectExit.fuelOut := by
      refine collectLoop_ne_fuelOut extract scroll limit (6 * limit + 7) []
        (-1) 0 0 hInv ?_
      simp
    simp only [collect_usernames_from_followers_dialog]
    exact hnf

/-- Claim C10, witness: a container whose link href is "/abc/" passes the
filter and is appended, so the record ("abc", "Nama") of the resulting state
has a valid username. -/
theorem C10_username_filter_witness : valid_username "abc" = true :=
  (C10_username_filter [{ href := some "/abc/", nama := "Nama" }] [] []
      (by simp)).1
    ("abc", "Nama") (by decide)
